import Mathlib

/-!
Verification of the availability/conflict calculator of the clinic
management application (Mongoose models plus Express route handlers).

Times of day are "HH:MM" strings in the source; outside the raw input
validation layer (modelled separately with strings at the end of this
file) every stored time has passed the HH:MM validators, and zero-padded
HH:MM strings compare lexicographically exactly as their minutes-since-
midnight values, so we embed a time as its parsed pair of numbers and
compare via `timeToMinutes`, mirroring `timeToMinutes` of
`routes/appointments.js`.
-/

namespace Clinic

/-- A parsed "HH:MM" time-of-day string: hour and minute fields. -/
structure HHMM where
  hours : Nat
  minutes : Nat
deriving DecidableEq, Repr

/-- `timeToMinutes` of `routes/appointments.js`: split "HH:MM" on ":" and
return `hours * 60 + minutes`. -/
def timeToMinutes (t : HHMM) : Nat :=
  t.hours * 60 + t.minutes

/-- `minutesToTime` of `routes/appointments.js`: `hours = floor(m / 60)`,
`mins = m % 60`, zero-padded back into "HH:MM". -/
def minutesToTime (m : Nat) : HHMM :=
  ⟨m / 60, m % 60⟩

theorem timeToMinutes_minutesToTime (m : Nat) :
    timeToMinutes (minutesToTime m) = m := by
  simp only [timeToMinutes, minutesToTime]
  omega

/-- The `status` enum of `appointmentSchema` in `models/Appointment.js`. -/
inductive Status where
  | scheduled | confirmed | inProgress | completed | cancelled | noShow | rescheduled
deriving DecidableEq, Repr

/-- `status: { $nin: ['Cancelled', 'No Show'] }`: statuses that count as
occupying staff time. -/
def Status.active (s : Status) : Bool :=
  s ≠ Status.cancelled ∧ s ≠ Status.noShow

/-- The fields of an `Appointment` document used by the scheduling logic.
Object ids and dates are abstracted to numbers; equality is all the code
uses of them. -/
structure Appointment where
  id : Nat
  patient : Nat
  staff : Nat
  service : Nat
  appointmentDate : Nat
  startTime : HHMM
  endTime : HHMM
  status : Status
deriving DecidableEq, Repr

/-- The predicate of the `findOne` query built by
`appointmentSchema.statics.checkConflict` (`models/Appointment.js`):
same staff, same date, status not in ['Cancelled','No Show'],
`startTime: { $lt: endTime }, endTime: { $gt: startTime }`, and when an
`excludeId` is given, `_id: { $ne: excludeId }`. -/
def conflictQuery (staffId date : Nat) (startTime endTime : HHMM)
    (excludeId : Option Nat) (a : Appointment) : Bool :=
  a.staff = staffId && a.appointmentDate = date && a.status.active &&
  decide (timeToMinutes a.startTime < timeToMinutes endTime) &&
  decide (timeToMinutes a.endTime > timeToMinutes startTime) &&
  (match excludeId with
   | none => true
   | some i => a.id ≠ i)

/-- `Appointment.checkConflict(staffId, date, startTime, endTime, excludeId)`:
`findOne` over the stored appointments with the query above; returns the
first matching document, or nothing. -/
def checkConflict (db : List Appointment) (staffId date : Nat)
    (startTime endTime : HHMM) (excludeId : Option Nat := none) :
    Option Appointment :=
  db.find? (conflictQuery staffId date startTime endTime excludeId)

/-- A candidate slot pushed into `availableSlots`:
`{ startTime: slotStart, endTime: slotEnd }`. -/
structure Slot where
  startTime : HHMM
  endTime : HHMM
deriving DecidableEq, Repr

/-- The `existingAppointments.some(...)` test inside
`calculateAvailableSlots`: the candidate `[cur, cur+dur)` overlaps some
appointment `[apptStart, apptEnd)` via
`currentMinutes < apptEnd && currentMinutes + serviceDuration > apptStart`. -/
def hasConflict (cur dur : Nat) (existing : List Appointment) : Bool :=
  existing.any fun a =>
    decide (cur < timeToMinutes a.endTime) &&
    decide (cur + dur > timeToMinutes a.startTime)

/-- The `while (currentMinutes + serviceDuration <= endMinutes)` loop of
`calculateAvailableSlots`: push the slot unless it conflicts, then advance
`currentMinutes += 30`. -/
def slotLoop (dur endM : Nat) (existing : List Appointment) (cur : Nat) :
    List Slot :=
  if cur + dur ≤ endM then
    if hasConflict cur dur existing then
      slotLoop dur endM existing (cur + 30)
    else
      ⟨minutesToTime cur, minutesToTime (cur + dur)⟩ ::
        slotLoop dur endM existing (cur + 30)
  else
    []
termination_by endM + 1 - cur
decreasing_by all_goals omega

/-- `calculateAvailableSlots(startTime, endTime, serviceDuration,
existingAppointments)` of `routes/appointments.js`. -/
def calculateAvailableSlots (startTime endTime : HHMM) (serviceDuration : Nat)
    (existingAppointments : List Appointment) : List Slot :=
  slotLoop serviceDuration (timeToMinutes endTime) existingAppointments
    (timeToMinutes startTime)

/-- Restatement of the spec's slot-generation algorithm, for the refinement
claim: the candidate starts `windowStart + 30 * k` whose slot still fits in
the window. -/
def specCandidates (startM endM dur : Nat) : List Nat :=
  if startM + dur ≤ endM then
    (List.range ((endM - dur - startM) / 30 + 1)).map fun k => startM + 30 * k
  else
    []

/-- Restatement of the spec's freeness rule: a candidate start is free iff
its slot `[c, c+D)` overlaps no existing booking under the half-open rule. -/
def freeAt (c dur : Nat) (existing : List Appointment) : Bool :=
  existing.all fun a =>
    !(decide (c < timeToMinutes a.endTime) &&
      decide (c + dur > timeToMinutes a.startTime))

/-- Restatement of the spec's slot-generation algorithm: keep every free
candidate start, in order, and emit its slot. -/
def specSlots (startM endM dur : Nat) (existing : List Appointment) :
    List Slot :=
  ((specCandidates startM endM dur).filter fun c => freeAt c dur existing).map
    fun c => ⟨minutesToTime c, minutesToTime (c + dur)⟩

/-- One entry of `staffSchema.availability` (`models/Staff.js`), with times
already past the HH:MM validators. The day is the weekday name string the
code compares against `toLocaleDateString('en-US', { weekday: 'long' })`. -/
structure AvailabilityWindow where
  dayOfWeek : String
  startTime : HHMM
  endTime : HHMM
deriving DecidableEq, Repr

/-- The fields of a `Staff` document used by the booking logic. -/
structure StaffDoc where
  id : Nat
  specialty : Option String
  availability : List AvailabilityWindow
  isActive : Bool
deriving DecidableEq, Repr

/-- The fields of a `Service` document used by the booking logic. -/
structure ServiceDoc where
  id : Nat
  durationMinutes : Nat
  price : Nat
  specialtyRequired : Option String
  isActive : Bool
deriving DecidableEq, Repr

/-- `calculateDurationMinutes(startTime, endTime)` of
`routes/appointments.js`: difference of the two times parsed on a fixed
date, in minutes (an integer, negative when `endTime` precedes
`startTime`). -/
def calculateDurationMinutes (startTime endTime : HHMM) : Int :=
  (timeToMinutes endTime : Int) - (timeToMinutes startTime : Int)

/-- `serviceDoc.specialtyRequired && serviceDoc.specialtyRequired !==
staffDoc.specialty` of the POST handler. -/
def specialtyMismatch (serviceDoc : ServiceDoc) (staffDoc : StaffDoc) : Bool :=
  match serviceDoc.specialtyRequired with
  | none => false
  | some sp => staffDoc.specialty ≠ some sp

/-- The `POST /api/appointments` handler of `routes/appointments.js`, from
the staff/service lookups onward (the documents are passed in, as the
route has already fetched them): active checks, specialty check,
availability lookup for the weekday, working-hours check, conflict check,
duration-tolerance check, then `Appointment.create`. On success the new
appointment (status defaulting to 'Scheduled') is appended to the store;
every rejection leaves the store untouched. -/
def createAppointment (staffDoc : StaffDoc) (serviceDoc : ServiceDoc)
    (db : List Appointment) (newId patient staffId serviceId date : Nat)
    (dayOfWeek : String) (startTime endTime : HHMM) :
    Except String (List Appointment) :=
  if ¬ staffDoc.isActive then
    Except.error "Staff member not found or inactive"
  else if ¬ serviceDoc.isActive then
    Except.error "Service not found or inactive"
  else if specialtyMismatch serviceDoc staffDoc then
    Except.error "This service requires a different specialty"
  else
    match staffDoc.availability.find? (fun w => w.dayOfWeek == dayOfWeek) with
    | none => Except.error "Staff member is not available on this day"
    | some availability =>
      if timeToMinutes startTime < timeToMinutes availability.startTime ∨
         timeToMinutes endTime > timeToMinutes availability.endTime then
        Except.error "Appointment time must be within staff working hours"
      else if (checkConflict db staffId date startTime endTime).isSome then
        Except.error "This time slot is already booked. Please choose a different time."
      else if (calculateDurationMinutes startTime endTime -
               (serviceDoc.durationMinutes : Int)).natAbs > 15 then
        Except.error "Appointment duration should match service duration"
      else
        Except.ok (db ++
          [⟨newId, patient, staffId, serviceId, date, startTime, endTime,
            Status.scheduled⟩])

/-- The JSON envelope of the `GET /api/appointments/available-slots`
response: HTTP status, `success` flag, `availableSlots`. -/
structure SlotsResponse where
  statusCode : Nat
  success : Bool
  availableSlots : List Slot
deriving DecidableEq, Repr

/-- The `GET /api/appointments/available-slots` handler of
`routes/appointments.js`, from the staff/service lookups onward: find the
availability window for the weekday (none → 200 with an empty slot list),
fetch the day's non-cancelled appointments for the staff member, and run
`calculateAvailableSlots`. -/
def getAvailableSlots (staffDoc : StaffDoc) (serviceDoc : ServiceDoc)
    (db : List Appointment) (staffId date : Nat) (dayOfWeek : String) :
    SlotsResponse :=
  match staffDoc.availability.find? (fun w => w.dayOfWeek == dayOfWeek) with
  | none => ⟨200, true, []⟩
  | some availability =>
    let appointments := db.filter fun a =>
      a.staff = staffId && a.appointmentDate = date && a.status.active
    ⟨200, true,
      calculateAvailableSlots availability.startTime availability.endTime
        serviceDoc.durationMinutes appointments⟩

/-- Two documents collide under the compound unique index of
`models/Appointment.js` (`{ staff, appointmentDate, startTime, endTime }`,
`unique: true`, `partialFilterExpression: status $nin
['Cancelled','No Show']`) iff both fall under the partial filter and agree
on all four indexed fields. -/
def indexCollision (a b : Appointment) : Bool :=
  a.status.active && b.status.active &&
  a.staff = b.staff && a.appointmentDate = b.appointmentDate &&
  a.startTime = b.startTime && a.endTime = b.endTime

/-- The storage invariant the unique partial index maintains: no two stored
appointments collide. -/
def NoDoubleBooking (db : List Appointment) : Prop :=
  db.Pairwise fun a b => indexCollision a b = false

/-- Modelled from the spec: the storage engine enforcing the unique index
(MongoDB) is outside this repository. An insert is rejected exactly when
the new document collides with a stored one under the index. -/
def insertAppointment (db : List Appointment) (a : Appointment) :
    Option (List Appointment) :=
  if db.any (fun b => indexCollision a b) then none else some (db ++ [a])

/-- Modelled from the spec: an update rewriting the document with id
`a'.id` to `a'` is rejected exactly when the new version collides with a
different stored document under the index. -/
def updateAppointment (db : List Appointment) (a' : Appointment) :
    Option (List Appointment) :=
  if db.any (fun b => b.id ≠ a'.id && indexCollision a' b) then none
  else some (db.map fun b => if b.id = a'.id then a' else b)

/-- Modelled from the spec: deleting a document by id. -/
def deleteAppointment (db : List Appointment) (i : Nat) : List Appointment :=
  db.filter fun b => b.id ≠ i

/-! ### The raw input-validation boundary of `routes/staff.js`

Availability arrays arrive as raw strings; the routes validate each slot's
times against the regex `^([0-1]?[0-9]|2[0-3]):[0-5][0-9]$` and reject
when `slot.startTime >= slot.endTime`, a JavaScript string comparison. -/

/-- One raw availability slot as received by the staff routes. -/
structure RawWindow where
  dayOfWeek : String
  startTime : String
  endTime : String
deriving DecidableEq, Repr

/-- The regex `^([0-1]?[0-9]|2[0-3]):[0-5][0-9]$` used by
`staffValidation` and the `PUT /:id/availability` route: hour part is a
single digit, `0`/`1` followed by a digit, or `20`–`23`; then `:`, then
`[0-5][0-9]`. -/
def validTimeFormat (s : String) : Bool :=
  match s.data with
  | [h, c, m1, m2] =>
    c == ':' && h.isDigit && decide ('0' ≤ m1 ∧ m1 ≤ '5') && m2.isDigit
  | [h1, h2, c, m1, m2] =>
    c == ':' &&
    ((h1 == '0' || h1 == '1') && h2.isDigit ||
      h1 == '2' && decide ('0' ≤ h2 ∧ h2 ≤ '3')) &&
    decide ('0' ≤ m1 ∧ m1 ≤ '5') && m2.isDigit
  | _ => false

/-- JavaScript's `<` on strings: lexicographic comparison of the
character sequences (a strict prefix is smaller). -/
def strLt : List Char → List Char → Bool
  | [], [] => false
  | [], _ :: _ => true
  | _ :: _, [] => false
  | a :: as, b :: bs => a < b || (a == b && strLt as bs)

/-- The enum of `availability.*.dayOfWeek`. -/
def validDays : List String :=
  ["Monday", "Tuesday", "Wednesday", "Thursday", "Friday", "Saturday",
   "Sunday"]

/-- The availability validation applied by the staff routes (create,
update, and `PUT /:id/availability`): every slot must have a valid day,
both times matching the HH:MM regex, and the request is rejected when
`slot.startTime >= slot.endTime` (string comparison), i.e. accepted only
when `startTime < endTime` as strings. -/
def validateAvailability (slots : List RawWindow) : Bool :=
  slots.all fun w =>
    validDays.contains w.dayOfWeek &&
    validTimeFormat w.startTime && validTimeFormat w.endTime &&
    strLt w.startTime.data w.endTime.data

/-- Digit-string parsing as JavaScript's `Number` does on the pieces of
`timeStr.split(':')` (for all-digit pieces). -/
def parseDigits : List Char → Nat → Nat
  | [], acc => acc
  | c :: cs, acc => parseDigits cs (acc * 10 + (c.toNat - '0'.toNat))

/-- `timeToMinutes` of the JavaScript helpers, applied to the raw string:
split on `:`, parse both pieces as numbers, return `h * 60 + m`. This is
the chronological meaning of the stored string. -/
def strTimeToMinutes (s : String) : Nat :=
  let h := s.data.takeWhile (fun c => c ≠ ':')
  let m := (s.data.dropWhile (fun c => c ≠ ':')).drop 1
  parseDigits h 0 * 60 + parseDigits m 0

/-! ### Helper lemmas -/

theorem freeAt_eq_not_hasConflict (c dur : Nat) (existing : List Appointment) :
    freeAt c dur existing = !hasConflict c dur existing := by
  induction existing with
  | nil => rfl
  | cons a l ih =>
    simp only [freeAt, hasConflict, List.all_cons, List.any_cons,
      Bool.not_or] at *
    rw [ih]

theorem specCandidates_cons (cur endM dur : Nat) :
    specCandidates cur endM dur =
      if cur + dur ≤ endM then cur :: specCandidates (cur + 30) endM dur
      else [] := by
  unfold specCandidates
  by_cases h : cur + dur ≤ endM
  · rw [if_pos h, if_pos h]
    by_cases h2 : cur + 30 + dur ≤ endM
    · rw [if_pos h2]
      have hN : (endM - dur - cur) / 30 + 1 =
          ((endM - dur - (cur + 30)) / 30 + 1) + 1 := by omega
      rw [hN, List.range_succ_eq_map, List.map_cons, List.map_map]
      congr 1
      apply List.map_congr_left
      intro a _
      simp only [Function.comp_apply, Nat.succ_eq_add_one]
      ring
    · rw [if_neg h2]
      have hN : (endM - dur - cur) / 30 + 1 = 1 := by omega
      rw [hN]
      simp [List.range_succ]
  · rw [if_neg h, if_neg h]

theorem slotLoop_eq_specSlots_aux (dur endM : Nat)
    (existing : List Appointment) :
    ∀ n cur, endM + 1 - cur ≤ n →
      slotLoop dur endM existing cur = specSlots cur endM dur existing := by
  intro n
  induction n with
  | zero =>
    intro cur h
    have hlt : ¬ cur + dur ≤ endM := by omega
    rw [slotLoop, if_neg hlt]
    unfold specSlots
    rw [specCandidates_cons, if_neg hlt]
    rfl
  | succ n ih =>
    intro cur h
    rw [slotLoop]
    unfold specSlots
    rw [specCandidates_cons]
    by_cases hc : cur + dur ≤ endM
    · rw [if_pos hc, if_pos hc, List.filter_cons,
        freeAt_eq_not_hasConflict, ih (cur + 30) (by omega)]
      unfold specSlots
      cases hcf : hasConflict cur dur existing
      · simp [hcf]
      · simp [hcf]
    · rw [if_neg hc, if_neg hc]
      rfl

theorem calculateAvailableSlots_eq_specSlots (s e : HHMM) (dur : Nat)
    (existing : List Appointment) :
    calculateAvailableSlots s e dur existing =
      specSlots (timeToMinutes s) (timeToMinutes e) dur existing :=
  slotLoop_eq_specSlots_aux dur (timeToMinutes e) existing
    (timeToMinutes e + 1) (timeToMinutes s) (by omega)

theorem mem_specCandidates (c startM endM dur : Nat) :
    c ∈ specCandidates startM endM dur ↔
      ∃ k, c = startM + 30 * k ∧ c + dur ≤ endM := by
  unfold specCandidates
  by_cases h : startM + dur ≤ endM
  · rw [if_pos h]
    simp only [List.mem_map, List.mem_range]
    constructor
    · rintro ⟨k, hk, rfl⟩
      exact ⟨k, rfl, by omega⟩
    · rintro ⟨k, rfl, hle⟩
      exact ⟨k, by omega, rfl⟩
  · rw [if_neg h]
    simp only [List.not_mem_nil, false_iff, not_exists, not_and]
    rintro k rfl
    omega

theorem mem_calculateAvailableSlots (s e : HHMM) (dur : Nat)
    (existing : List Appointment) (slot : Slot) :
    slot ∈ calculateAvailableSlots s e dur existing ↔
      ∃ k, slot = ⟨minutesToTime (timeToMinutes s + 30 * k),
                   minutesToTime (timeToMinutes s + 30 * k + dur)⟩ ∧
        timeToMinutes s + 30 * k + dur ≤ timeToMinutes e ∧
        freeAt (timeToMinutes s + 30 * k) dur existing = true := by
  rw [calculateAvailableSlots_eq_specSlots]
  unfold specSlots
  simp only [List.mem_map, List.mem_filter, mem_specCandidates]
  constructor
  · rintro ⟨c, ⟨⟨k, rfl, hle⟩, hfree⟩, rfl⟩
    exact ⟨k, rfl, hle, hfree⟩
  · rintro ⟨k, rfl, hle, hfree⟩
    exact ⟨timeToMinutes s + 30 * k, ⟨⟨k, rfl, hle⟩, hfree⟩, rfl⟩

theorem calculateAvailableSlots_pairwise (s e : HHMM) (dur : Nat)
    (existing : List Appointment) :
    (calculateAvailableSlots s e dur existing).Pairwise
      (fun a b => timeToMinutes a.startTime < timeToMinutes b.startTime) := by
  rw [calculateAvailableSlots_eq_specSlots]
  unfold specSlots
  rw [List.pairwise_map]
  have hcand :
      (specCandidates (timeToMinutes s) (timeToMinutes e) dur).Pairwise
        (· < ·) := by
    unfold specCandidates
    split
    · rw [List.pairwise_map]
      exact (List.pairwise_lt_range _).imp (by intro a b hab; omega)
    · exact List.Pairwise.nil
  refine (hcand.filter _).imp ?_
  intro a b hab
  simpa [timeToMinutes_minutesToTime] using hab

theorem conflictQuery_true_iff (staffId date : Nat) (s e : HHMM)
    (excl : Option Nat) (a : Appointment) :
    conflictQuery staffId date s e excl a = true ↔
      (a.staff = staffId ∧ a.appointmentDate = date ∧
       a.status ≠ Status.cancelled ∧ a.status ≠ Status.noShow ∧
       (∀ i, excl = some i → a.id ≠ i) ∧
       timeToMinutes a.startTime < timeToMinutes e ∧
       timeToMinutes s < timeToMinutes a.endTime) := by
  cases excl <;>
    simp [conflictQuery, Status.active] <;>
    tauto

/-! ### Claim theorems -/

/-- C1: `Appointment.checkConflict` reports a conflict if and only if some
stored booking has the same staff and date, a status that is neither
Cancelled nor No Show, an id different from the excluded one, and an
interval overlapping the requested one under the half-open rule
`s1 < e2 ∧ e1 > s2`; and when every stored booking merely abuts the
requested interval (`e1 = s2` or `e2 = s1`), no conflict is reported. -/
theorem checkConflict_halfOpen_spec (db : List Appointment)
    (staffId date : Nat) (s e : HHMM) (excl : Option Nat) :
    ((checkConflict db staffId date s e excl).isSome ↔
      ∃ a ∈ db, a.staff = staffId ∧ a.appointmentDate = date ∧
        a.status ≠ Status.cancelled ∧ a.status ≠ Status.noShow ∧
        (∀ i, excl = some i → a.id ≠ i) ∧
        timeToMinutes a.startTime < timeToMinutes e ∧
        timeToMinutes s < timeToMinutes a.endTime) ∧
    ((∀ a ∈ db, timeToMinutes a.endTime = timeToMinutes s ∨
        timeToMinutes a.startTime = timeToMinutes e) →
      checkConflict db staffId date s e excl = none) := by
  constructor
  · unfold checkConflict
    rw [List.find?_isSome]
    simp only [conflictQuery_true_iff]
  · intro hb
    unfold checkConflict
    rw [List.find?_eq_none]
    intro a ha
    rw [conflictQuery_true_iff]
    rintro ⟨-, -, -, -, -, h1, h2⟩
    rcases hb a ha with h | h <;> omega

/-- C1 witness: two bookings abutting the requested 10:00–11:00 interval
(one ending at 10:00, one starting at 11:00) produce no conflict. -/
theorem checkConflict_halfOpen_spec_witness :
    checkConflict
      [⟨1, 1, 2, 3, 5, ⟨9, 0⟩, ⟨10, 0⟩, Status.scheduled⟩,
       ⟨4, 1, 2, 3, 5, ⟨11, 0⟩, ⟨12, 0⟩, Status.scheduled⟩]
      2 5 ⟨10, 0⟩ ⟨11, 0⟩ none = none :=
  (checkConflict_halfOpen_spec _ 2 5 ⟨10, 0⟩ ⟨11, 0⟩ none).2 (by decide)

/-- C2: slot generation equals the spec's algorithm — candidate starts are
exactly `windowStart + 30 * k` (fixed 30-minute stride) whose slot
`[c, c+D)` still fits (`c + D ≤ windowEnd`), each kept iff it overlaps no
existing booking under the half-open rule — and the returned list is in
chronological order. -/
theorem calculateAvailableSlots_spec (s e : HHMM) (D : Nat)
    (existing : List Appointment) :
    calculateAvailableSlots s e D existing =
      specSlots (timeToMinutes s) (timeToMinutes e) D existing ∧
    (∀ c, c ∈ specCandidates (timeToMinutes s) (timeToMinutes e) D ↔
      ∃ k, c = timeToMinutes s + 30 * k ∧ c + D ≤ timeToMinutes e) ∧
    (calculateAvailableSlots s e D existing).Pairwise
      (fun a b => timeToMinutes a.startTime < timeToMinutes b.startTime) :=
  ⟨calculateAvailableSlots_eq_specSlots s e D existing,
   fun c => mem_specCandidates c _ _ D,
   calculateAvailableSlots_pairwise s e D existing⟩

/-- C3 counterexample: with availability 09:00–17:00, one booking
10:00–10:45 and duration 30, no generated slot starts at 10:45 — the
stride is anchored at the window start, so 10:45 is never a candidate. -/
theorem slots_scenario_no_1045 :
    ¬ ∃ slot ∈ calculateAvailableSlots ⟨9, 0⟩ ⟨17, 0⟩ 30
        [⟨1, 1, 1, 1, 1, ⟨10, 0⟩, ⟨10, 45⟩, Status.scheduled⟩],
      slot.startTime = HHMM.mk 10 45 := by
  simp only [calculateAvailableSlots_eq_specSlots]
  decide

/-- C3 amended: in that scenario the generated slot starts are exactly
09:00 and 09:30, then (skipping the overlapping candidates 10:00 and
10:30; 10:15 and 10:45 are never candidates) 11:00 onward at a 30-minute
stride anchored at the window start. -/
theorem slots_scenario_amended :
    (calculateAvailableSlots ⟨9, 0⟩ ⟨17, 0⟩ 30
        [⟨1, 1, 1, 1, 1, ⟨10, 0⟩, ⟨10, 45⟩, Status.scheduled⟩]).map
      Slot.startTime =
    [⟨9, 0⟩, ⟨9, 30⟩, ⟨11, 0⟩, ⟨11, 30⟩, ⟨12, 0⟩, ⟨12, 30⟩, ⟨13, 0⟩,
     ⟨13, 30⟩, ⟨14, 0⟩, ⟨14, 30⟩, ⟨15, 0⟩, ⟨15, 30⟩, ⟨16, 0⟩,
     ⟨16, 30⟩] := by
  rw [calculateAvailableSlots_eq_specSlots]
  decide

/-- C4: no slot returned by slot generation overlaps any existing booking
under the half-open rule. -/
theorem calculateAvailableSlots_no_overlap (s e : HHMM) (D : Nat)
    (existing : List Appointment) (slot : Slot) (b : Appointment)
    (hs : slot ∈ calculateAvailableSlots s e D existing)
    (hb : b ∈ existing) :
    ¬ (timeToMinutes slot.startTime < timeToMinutes b.endTime ∧
       timeToMinutes b.startTime < timeToMinutes slot.endTime) := by
  rw [mem_calculateAvailableSlots] at hs
  obtain ⟨k, rfl, hle, hfree⟩ := hs
  unfold freeAt at hfree
  rw [List.all_eq_true] at hfree
  have hb' := hfree b hb
  simp only [Bool.not_and, Bool.or_eq_true, Bool.not_eq_true',
    decide_eq_false_iff_not, Nat.not_lt] at hb'
  simp only [timeToMinutes_minutesToTime]
  omega

/-- C4 witness: the 09:00–09:30 slot generated for the C3 scenario does
not overlap the 10:00–10:45 booking. -/
theorem calculateAvailableSlots_no_overlap_witness :
    ¬ (timeToMinutes (HHMM.mk 9 0) < timeToMinutes (HHMM.mk 10 45) ∧
       timeToMinutes (HHMM.mk 10 0) < timeToMinutes (HHMM.mk 9 30)) :=
  calculateAvailableSlots_no_overlap ⟨9, 0⟩ ⟨17, 0⟩ 30
    [⟨1, 1, 1, 1, 1, ⟨10, 0⟩, ⟨10, 45⟩, Status.scheduled⟩]
    ⟨⟨9, 0⟩, ⟨9, 30⟩⟩ ⟨1, 1, 1, 1, 1, ⟨10, 0⟩, ⟨10, 45⟩, Status.scheduled⟩
    (by simp only [calculateAvailableSlots_eq_specSlots]; decide)
    (by decide)

/-- C5: every slot returned by slot generation ends no later than the
availability window end. -/
theorem calculateAvailableSlots_within_window (s e : HHMM) (D : Nat)
    (existing : List Appointment) (slot : Slot)
    (hs : slot ∈ calculateAvailableSlots s e D existing) :
    timeToMinutes slot.endTime ≤ timeToMinutes e := by
  rw [mem_calculateAvailableSlots] at hs
  obtain ⟨k, rfl, hle, -⟩ := hs
  simpa [timeToMinutes_minutesToTime] using hle

/-- C5 witness: the 09:00–09:30 slot generated for the C3 scenario ends
by 17:00. -/
theorem calculateAvailableSlots_within_window_witness :
    timeToMinutes (HHMM.mk 9 30) ≤ timeToMinutes (HHMM.mk 17 0) :=
  calculateAvailableSlots_within_window ⟨9, 0⟩ ⟨17, 0⟩ 30
    [⟨1, 1, 1, 1, 1, ⟨10, 0⟩, ⟨10, 45⟩, Status.scheduled⟩]
    ⟨⟨9, 0⟩, ⟨9, 30⟩⟩
    (by simp only [calculateAvailableSlots_eq_specSlots]; decide)

theorem indexCollision_comm (a b : Appointment) :
    indexCollision a b = indexCollision b a := by
  unfold indexCollision
  rw [Bool.eq_iff_iff]
  simp only [Bool.and_eq_true, decide_eq_true_eq, and_assoc]
  constructor <;> rintro ⟨h1, h2, h3, h4, h5, h6⟩ <;>
    exact ⟨h2, h1, h3.symm, h4.symm, h5.symm, h6.symm⟩

theorem insertAppointment_preserves (db : List Appointment)
    (a : Appointment) (db' : List Appointment) (hdb : NoDoubleBooking db)
    (h : insertAppointment db a = some db') : NoDoubleBooking db' := by
  unfold insertAppointment at h
  by_cases hany : (db.any fun b => indexCollision a b) = true
  · rw [if_pos hany] at h
    cases h
  · rw [if_neg hany] at h
    injection h with h'
    subst h'
    have h0 := List.any_eq_false.mp (Bool.eq_false_iff.mpr hany)
    unfold NoDoubleBooking at *
    rw [List.pairwise_append]
    refine ⟨hdb, List.pairwise_singleton _ _, ?_⟩
    intro x hx y hy
    rw [List.mem_singleton] at hy
    subst hy
    rw [indexCollision_comm]
    exact Bool.eq_false_iff.mpr (h0 x hx)

theorem insertAppointment_rejects (db : List Appointment) (a b : Appointment)
    (hb : b ∈ db) (hcol : indexCollision a b = true) :
    insertAppointment db a = none := by
  unfold insertAppointment
  rw [if_pos (List.any_eq_true.mpr ⟨b, hb, hcol⟩)]

theorem updateAppointment_preserves (db : List Appointment)
    (a' : Appointment) (db' : List Appointment)
    (hids : db.Pairwise fun x y => x.id ≠ y.id) (hdb : NoDoubleBooking db)
    (h : updateAppointment db a' = some db') : NoDoubleBooking db' := by
  unfold updateAppointment at h
  by_cases hany :
      (db.any fun b => decide (b.id ≠ a'.id) && indexCollision a' b) = true
  · rw [if_pos hany] at h
    cases h
  · rw [if_neg hany] at h
    injection h with h'
    subst h'
    have h0 := List.any_eq_false.mp (Bool.eq_false_iff.mpr hany)
    have hguard : ∀ b ∈ db, b.id ≠ a'.id → indexCollision a' b = false := by
      intro b hb hbid
      have hb0 := h0 b hb
      simp only [Bool.and_eq_true, decide_eq_true_eq, not_and] at hb0
      exact Bool.eq_false_iff.mpr (hb0 hbid)
    unfold NoDoubleBooking at *
    rw [List.pairwise_map]
    refine List.Pairwise.imp_of_mem ?_ (hdb.and hids)
    intro x y hx hy hxy
    obtain ⟨hcol, hid⟩ := hxy
    by_cases hxa : x.id = a'.id
    · rw [if_pos hxa]
      have hya : y.id ≠ a'.id := by
        intro hya
        exact hid (hxa.trans hya.symm)
      rw [if_neg hya]
      exact hguard y hy hya
    · rw [if_neg hxa]
      by_cases hya : y.id = a'.id
      · rw [if_pos hya]
        rw [indexCollision_comm]
        exact hguard x hx hxa
      · rw [if_neg hya]
        exact hcol

theorem deleteAppointment_preserves (db : List Appointment) (i : Nat)
    (hdb : NoDoubleBooking db) : NoDoubleBooking (deleteAppointment db i) :=
  List.Pairwise.filter _ hdb

/-- C6: the storage layer (the unique partial index over
`(staff, appointmentDate, startTime, endTime)` scoped to non-cancelled
statuses) rejects any second write duplicating an active tuple, and the
"no two active appointments share the tuple" invariant is preserved by
insert, update and delete. -/
theorem noDoubleBooking_storage (db : List Appointment) (a a' : Appointment)
    (i : Nat) :
    (NoDoubleBooking db → ∀ db', insertAppointment db a = some db' →
      NoDoubleBooking db') ∧
    (∀ b ∈ db, indexCollision a b = true → insertAppointment db a = none) ∧
    ((db.Pairwise fun x y => x.id ≠ y.id) → NoDoubleBooking db →
      ∀ db', updateAppointment db a' = some db' → NoDoubleBooking db') ∧
    (NoDoubleBooking db → NoDoubleBooking (deleteAppointment db i)) :=
  ⟨fun hdb db' h => insertAppointment_preserves db a db' hdb h,
   fun b hb hcol => insertAppointment_rejects db a b hb hcol,
   fun hids hdb db' h => updateAppointment_preserves db a' db' hids hdb h,
   fun hdb => deleteAppointment_preserves db i hdb⟩

/-- C6 witness: inserting into an empty store succeeds and keeps the
invariant, and re-inserting the same active tuple is rejected. -/
theorem noDoubleBooking_storage_witness :
    NoDoubleBooking [⟨1, 1, 2, 3, 5, ⟨9, 0⟩, ⟨10, 0⟩, Status.scheduled⟩] ∧
    insertAppointment [⟨1, 1, 2, 3, 5, ⟨9, 0⟩, ⟨10, 0⟩, Status.scheduled⟩]
      ⟨6, 7, 2, 3, 5, ⟨9, 0⟩, ⟨10, 0⟩, Status.scheduled⟩ = none :=
  ⟨(noDoubleBooking_storage []
      ⟨1, 1, 2, 3, 5, ⟨9, 0⟩, ⟨10, 0⟩, Status.scheduled⟩
      ⟨1, 1, 2, 3, 5, ⟨9, 0⟩, ⟨10, 0⟩, Status.scheduled⟩ 0).1
      List.Pairwise.nil _ rfl,
   (noDoubleBooking_storage
      [⟨1, 1, 2, 3, 5, ⟨9, 0⟩, ⟨10, 0⟩, Status.scheduled⟩]
      ⟨6, 7, 2, 3, 5, ⟨9, 0⟩, ⟨10, 0⟩, Status.scheduled⟩
      ⟨6, 7, 2, 3, 5, ⟨9, 0⟩, ⟨10, 0⟩, Status.scheduled⟩ 0).2.1
      ⟨1, 1, 2, 3, 5, ⟨9, 0⟩, ⟨10, 0⟩, Status.scheduled⟩
      (by decide) (by decide)⟩

theorem createAppointment_ok_conditions (staffDoc : StaffDoc)
    (serviceDoc : ServiceDoc) (db : List Appointment)
    (newId patient staffId serviceId date : Nat) (dayOfWeek : String)
    (startTime endTime : HHMM) (db' : List Appointment)
    (h : createAppointment staffDoc serviceDoc db newId patient staffId
      serviceId date dayOfWeek startTime endTime = Except.ok db') :
    ∃ w, staffDoc.availability.find?
        (fun x => x.dayOfWeek == dayOfWeek) = some w ∧
      timeToMinutes w.startTime ≤ timeToMinutes startTime ∧
      timeToMinutes endTime ≤ timeToMinutes w.endTime ∧
      (checkConflict db staffId date startTime endTime).isSome = false ∧
      (calculateDurationMinutes startTime endTime -
        (serviceDoc.durationMinutes : Int)).natAbs ≤ 15 ∧
      db' = db ++ [⟨newId, patient, staffId, serviceId, date, startTime,
        endTime, Status.scheduled⟩] := by
  unfold createAppointment at h
  split at h
  · cases h
  split at h
  · cases h
  split at h
  · cases h
  split at h
  · cases h
  next w hfind =>
    split at h
    · cases h
    next hhours =>
      split at h
      · cases h
      next hconf =>
        split at h
        · cases h
        next hdur =>
          injection h with h'
          exact ⟨w, hfind, by omega, by omega,
            Bool.eq_false_iff.mpr hconf, by omega, h'.symm⟩

theorem createAppointment_ok_of (staffDoc : StaffDoc)
    (serviceDoc : ServiceDoc) (db : List Appointment)
    (newId patient staffId serviceId date : Nat) (dayOfWeek : String)
    (startTime endTime : HHMM) (w : AvailabilityWindow)
    (h1 : staffDoc.isActive = true) (h2 : serviceDoc.isActive = true)
    (h3 : specialtyMismatch serviceDoc staffDoc = false)
    (hfind : staffDoc.availability.find?
      (fun x => x.dayOfWeek == dayOfWeek) = some w)
    (hhours : timeToMinutes w.startTime ≤ timeToMinutes startTime ∧
      timeToMinutes endTime ≤ timeToMinutes w.endTime)
    (hconf : (checkConflict db staffId date startTime endTime).isSome =
      false)
    (hdur : (calculateDurationMinutes startTime endTime -
      (serviceDoc.durationMinutes : Int)).natAbs ≤ 15) :
    createAppointment staffDoc serviceDoc db newId patient staffId
      serviceId date dayOfWeek startTime endTime =
    Except.ok (db ++ [⟨newId, patient, staffId, serviceId, date, startTime,
      endTime, Status.scheduled⟩]) := by
  unfold createAppointment
  rw [if_neg (by simp [h1]), if_neg (by simp [h2]), if_neg (by simp [h3]),
    hfind]
  simp only []
  rw [if_neg (by omega), if_neg (by simp [hconf]), if_neg (by omega)]

theorem createAppointment_durationError_of (staffDoc : StaffDoc)
    (serviceDoc : ServiceDoc) (db : List Appointment)
    (newId patient staffId serviceId date : Nat) (dayOfWeek : String)
    (startTime endTime : HHMM) (w : AvailabilityWindow)
    (h1 : staffDoc.isActive = true) (h2 : serviceDoc.isActive = true)
    (h3 : specialtyMismatch serviceDoc staffDoc = false)
    (hfind : staffDoc.availability.find?
      (fun x => x.dayOfWeek == dayOfWeek) = some w)
    (hhours : timeToMinutes w.startTime ≤ timeToMinutes startTime ∧
      timeToMinutes endTime ≤ timeToMinutes w.endTime)
    (hconf : (checkConflict db staffId date startTime endTime).isSome =
      false)
    (hdur : (calculateDurationMinutes startTime endTime -
      (serviceDoc.durationMinutes : Int)).natAbs > 15) :
    createAppointment staffDoc serviceDoc db newId patient staffId
      serviceId date dayOfWeek startTime endTime =
    Except.error "Appointment duration should match service duration" := by
  unfold createAppointment
  rw [if_neg (by simp [h1]), if_neg (by simp [h2]), if_neg (by simp [h3]),
    hfind]
  simp only []
  rw [if_neg (by omega), if_neg (by simp [hconf]), if_pos (by omega)]

/-- C7: once the earlier gates of the POST handler pass (active staff and
service, specialty match, availability window found, within working hours,
no conflict), the booking is accepted iff the requested duration differs
from the service's nominal duration by at most 15 minutes; a larger
difference yields the duration validation error and no appointment is
created. -/
theorem bookingDurationTolerance (staffDoc : StaffDoc)
    (serviceDoc : ServiceDoc) (db : List Appointment)
    (newId patient staffId serviceId date : Nat) (dayOfWeek : String)
    (startTime endTime : HHMM) (w : AvailabilityWindow)
    (h1 : staffDoc.isActive = true) (h2 : serviceDoc.isActive = true)
    (h3 : specialtyMismatch serviceDoc staffDoc = false)
    (hfind : staffDoc.availability.find?
      (fun x => x.dayOfWeek == dayOfWeek) = some w)
    (hhours : timeToMinutes w.startTime ≤ timeToMinutes startTime ∧
      timeToMinutes endTime ≤ timeToMinutes w.endTime)
    (hconf : (checkConflict db staffId date startTime endTime).isSome =
      false) :
    ((createAppointment staffDoc serviceDoc db newId patient staffId
        serviceId date dayOfWeek startTime endTime).isOk = true ↔
      (calculateDurationMinutes startTime endTime -
        (serviceDoc.durationMinutes : Int)).natAbs ≤ 15) ∧
    ((calculateDurationMinutes startTime endTime -
        (serviceDoc.durationMinutes : Int)).natAbs > 15 →
      createAppointment staffDoc serviceDoc db newId patient staffId
        serviceId date dayOfWeek startTime endTime =
      Except.error "Appointment duration should match service duration") := by
  constructor
  · constructor
    · intro hok
      cases hres : createAppointment staffDoc serviceDoc db newId patient
        staffId serviceId date dayOfWeek startTime endTime with
      | ok db' =>
        obtain ⟨-, -, -, -, -, hle, -⟩ :=
          createAppointment_ok_conditions staffDoc serviceDoc db newId
            patient staffId serviceId date dayOfWeek startTime endTime
            db' hres
        exact hle
      | error s =>
        rw [hres] at hok
        cases hok
    · intro hdur
      rw [createAppointment_ok_of staffDoc serviceDoc db newId patient
        staffId serviceId date dayOfWeek startTime endTime w h1 h2 h3
        hfind hhours hconf hdur]
      rfl
  · intro hdur
    exact createAppointment_durationError_of staffDoc serviceDoc db newId
      patient staffId serviceId date dayOfWeek startTime endTime w h1 h2
      h3 hfind hhours hconf hdur

/-- C7 witness: a 09:00–09:30 request for a 30-minute service on a Monday
window 09:00–17:00 passes every gate, so acceptance is equivalent to the
zero-minute difference being within tolerance. -/
theorem bookingDurationTolerance_witness :
    ((createAppointment ⟨1, none, [⟨"Monday", ⟨9, 0⟩, ⟨17, 0⟩⟩], true⟩
        ⟨3, 30, 100, none, true⟩ [] 9 7 1 3 5 "Monday" ⟨9, 0⟩
        ⟨9, 30⟩).isOk = true ↔
      (calculateDurationMinutes ⟨9, 0⟩ ⟨9, 30⟩ - (30 : Int)).natAbs ≤ 15) ∧
    ((calculateDurationMinutes ⟨9, 0⟩ ⟨9, 30⟩ - (30 : Int)).natAbs > 15 →
      createAppointment ⟨1, none, [⟨"Monday", ⟨9, 0⟩, ⟨17, 0⟩⟩], true⟩
        ⟨3, 30, 100, none, true⟩ [] 9 7 1 3 5 "Monday" ⟨9, 0⟩ ⟨9, 30⟩ =
      Except.error "Appointment duration should match service duration") :=
  bookingDurationTolerance ⟨1, none, [⟨"Monday", ⟨9, 0⟩, ⟨17, 0⟩⟩], true⟩
    ⟨3, 30, 100, none, true⟩ [] 9 7 1 3 5 "Monday" ⟨9, 0⟩ ⟨9, 30⟩
    ⟨"Monday", ⟨9, 0⟩, ⟨17, 0⟩⟩ rfl rfl rfl (by decide) (by decide)
    (by decide)

/-- C9: when the staff member has no availability window for the requested
weekday, the available-slots endpoint returns HTTP 200 with `success:
true` and an empty slot list, not an error. -/
theorem availableSlots_noWindow (staffDoc : StaffDoc)
    (serviceDoc : ServiceDoc) (db : List Appointment) (staffId date : Nat)
    (dayOfWeek : String)
    (h : staffDoc.availability.find? (fun w => w.dayOfWeek == dayOfWeek) =
      none) :
    getAvailableSlots staffDoc serviceDoc db staffId date dayOfWeek =
      ⟨200, true, []⟩ := by
  unfold getAvailableSlots
  rw [h]

/-- C9 witness: a staff member with no availability at all yields the 200
empty-slot response for a Monday query. -/
theorem availableSlots_noWindow_witness :
    getAvailableSlots ⟨1, none, [⟨"Tuesday", ⟨9, 0⟩, ⟨17, 0⟩⟩], true⟩
      ⟨3, 30, 100, none, true⟩ [] 1 5 "Monday" = ⟨200, true, []⟩ :=
  availableSlots_noWindow _ _ _ _ _ _ (by decide)

/-- C10: a successful booking lies within the staff availability window
for the weekday, with inclusive boundaries; and whenever the window is
found but the request starts before it or ends after it, the request is
never accepted. -/
theorem bookingWithinAvailability (staffDoc : StaffDoc)
    (serviceDoc : ServiceDoc) (db : List Appointment)
    (newId patient staffId serviceId date : Nat) (dayOfWeek : String)
    (startTime endTime : HHMM) :
    (∀ db', createAppointment staffDoc serviceDoc db newId patient staffId
        serviceId date dayOfWeek startTime endTime = Except.ok db' →
      ∃ w, staffDoc.availability.find?
          (fun x => x.dayOfWeek == dayOfWeek) = some w ∧
        timeToMinutes w.startTime ≤ timeToMinutes startTime ∧
        timeToMinutes endTime ≤ timeToMinutes w.endTime) ∧
    (∀ w, staffDoc.availability.find?
        (fun x => x.dayOfWeek == dayOfWeek) = some w →
      (timeToMinutes startTime < timeToMinutes w.startTime ∨
       timeToMinutes w.endTime < timeToMinutes endTime) →
      ∀ db', createAppointment staffDoc serviceDoc db newId patient staffId
        serviceId date dayOfWeek startTime endTime ≠ Except.ok db') := by
  constructor
  · intro db' h
    obtain ⟨w, hfind, hs, he, -⟩ :=
      createAppointment_ok_conditions staffDoc serviceDoc db newId patient
        staffId serviceId date dayOfWeek startTime endTime db' h
    exact ⟨w, hfind, hs, he⟩
  · intro w hw hout db' h
    obtain ⟨w', hfind, hs, he, -⟩ :=
      createAppointment_ok_conditions staffDoc serviceDoc db newId patient
        staffId serviceId date dayOfWeek startTime endTime db' h
    rw [hw] at hfind
    injection hfind with hww
    subst hww
    omega

/-- C10 witness: a Monday 08:00–08:30 request against a Monday 09:00–17:00
window is never accepted. -/
theorem bookingWithinAvailability_witness :
    createAppointment ⟨1, none, [⟨"Monday", ⟨9, 0⟩, ⟨17, 0⟩⟩], true⟩
      ⟨3, 30, 100, none, true⟩ [] 9 7 1 3 5 "Monday" ⟨8, 0⟩ ⟨8, 30⟩ ≠
    Except.ok [] :=
  (bookingWithinAvailability ⟨1, none, [⟨"Monday", ⟨9, 0⟩, ⟨17, 0⟩⟩], true⟩
    ⟨3, 30, 100, none, true⟩ [] 9 7 1 3 5 "Monday" ⟨8, 0⟩ ⟨8, 30⟩).2
    ⟨"Monday", ⟨9, 0⟩, ⟨17, 0⟩⟩ (by decide) (by decide) []

/-- C8 (code bug): the staff-route availability validation accepts the
slot `{startTime: "10:00", endTime: "9:00"}` — the HH:MM regex admits
single-digit hours and the start/end comparison is a string comparison,
under which `"10:00" < "9:00"` — although the window is chronologically
inverted (10:00 ≥ 9:00); the same string comparison also rejects the
chronologically valid `"9:00"–"17:00"`, while zero-padded input behaves
as specified. -/
theorem availabilityValidation_invertedWindow :
    validateAvailability [⟨"Monday", "10:00", "9:00"⟩] = true ∧
    strTimeToMinutes "9:00" < strTimeToMinutes "10:00" ∧
    validateAvailability [⟨"Monday", "09:00", "17:00"⟩] = true ∧
    validateAvailability [⟨"Monday", "9:00", "17:00"⟩] = false := by
  refine ⟨?_, ?_, ?_, ?_⟩ <;> decide

end Clinic
